import Mathlib

/-!
Verification development for the IV-measurement instrument-control core:
a shallow embedding of the safety validators, response parsing, GPIB
fallback connector and fast-sweep executor of connection.py, and of the
waveform generators of gui.py.  Python floats are modelled as rationals
plus explicit non-finite values; Python strings are modelled as Lean
strings or lists of characters; the VISA transport is modelled as an
oracle environment, and each instrument-facing action is recorded in an
explicit event trace.
-/

/-- Model of a Python float value: a finite value (modelled exactly as a
rational) or one of the three non-finite floats. -/
inductive PyFloat where
  | finite (q : ℚ)
  | nan
  | inf
  | ninf
deriving DecidableEq

/-- The math.isfinite test. -/
def PyFloat.isFinite : PyFloat → Bool
  | .finite _ => true
  | _ => false

/-- The rational carried by a finite float (0 for non-finite values; used
only after a finiteness check has succeeded). -/
def PyFloat.toQ : PyFloat → ℚ
  | .finite q => q
  | _ => 0

/-- KeithleyConnection.MAX_ABS_VOLTAGE. -/
def MAX_ABS_VOLTAGE : ℚ := 210

/-- KeithleyConnection.MAX_COMPLIANCE_UA. -/
def MAX_COMPLIANCE_UA : ℚ := 1000000

/-- KeithleyConnection._validate_voltage: requires a finite number of
magnitude at most MAX_ABS_VOLTAGE. -/
def validateVoltage : PyFloat → Except String Unit
  | .finite q =>
      if MAX_ABS_VOLTAGE < |q| then
        .error "Voltage exceeds allowed range (+/-210 V)"
      else .ok ()
  | _ => .error "Voltage must be a finite number"

/-- KeithleyConnection._validate_compliance: requires a finite number in
the half-open interval (0, MAX_COMPLIANCE_UA]. -/
def validateCompliance : PyFloat → Except String Unit
  | .finite q =>
      if q ≤ 0 then .error "Compliance must be greater than 0 uA"
      else if MAX_COMPLIANCE_UA < q then
        .error "Compliance exceeds allowed range (1e+06 uA max)"
      else .ok ()
  | _ => .error "Compliance must be a finite number"

/-! ### Numeric-response parsing (connection.py response handling) -/

/-- Decimal value of a list of digit characters, most significant first. -/
def natOfDigits (ds : List Char) : ℕ :=
  ds.foldl (fun a c => a * 10 + (c.toNat - 48)) 0

/-- Python str.strip on a character list: drop whitespace at both ends. -/
def pyStripList (cs : List Char) : List Char :=
  ((cs.dropWhile Char.isWhitespace).reverse.dropWhile Char.isWhitespace).reverse

/-- The numeric value of a matched token: integer digits, fraction digits
and a signed decimal exponent. -/
def tokenVal (intDs fracDs : List Char) (e : ℤ) : ℚ :=
  ((natOfDigits intDs : ℚ) + (natOfDigits fracDs : ℚ) / (10 : ℚ) ^ fracDs.length)
    * (10 : ℚ) ^ e

/-- The optional fraction part of the regex in _extract_first_float: a dot
followed by at least one digit; otherwise nothing is consumed. -/
def matchFrac : List Char → List Char × List Char
  | '.' :: rest =>
      if (rest.takeWhile Char.isDigit) = [] then ([], '.' :: rest)
      else (rest.takeWhile Char.isDigit, rest.dropWhile Char.isDigit)
  | cs => ([], cs)

/-- The optional exponent part of the regex in _extract_first_float: an
e or E, an optional sign and at least one digit; if the digits are
missing the whole exponent group matches nothing. -/
def matchExp : List Char → ℤ
  | c :: rest =>
      if c = 'e' ∨ c = 'E' then
        match rest with
        | '+' :: r2 => if (r2.takeWhile Char.isDigit) = [] then 0
                       else (natOfDigits (r2.takeWhile Char.isDigit) : ℤ)
        | '-' :: r2 => if (r2.takeWhile Char.isDigit) = [] then 0
                       else -(natOfDigits (r2.takeWhile Char.isDigit) : ℤ)
        | r2 => if (r2.takeWhile Char.isDigit) = [] then 0
                else (natOfDigits (r2.takeWhile Char.isDigit) : ℤ)
      else 0
  | [] => 0

/-- Greedy match of the unsigned numeric regex at the head of the input:
one or more digits, an optional fraction, an optional exponent. -/
def matchCore (cs : List Char) : Option ℚ :=
  let intDs := cs.takeWhile Char.isDigit
  if intDs = [] then none
  else
    let r1 := cs.dropWhile Char.isDigit
    let (fracDs, r2) := matchFrac r1
    some (tokenVal intDs fracDs (matchExp r2))

/-- Attempt of the full signed regex at one position: an optional sign
followed by the unsigned core (with the backtracking behaviour of an
optional sign group). -/
def tryMatchAt : List Char → Option ℚ
  | '+' :: rest => matchCore rest
  | '-' :: rest => (matchCore rest).map Neg.neg
  | cs => matchCore cs

/-- re.search of the numeric-token regex: try every start position from
the left and take the first match. -/
def searchNum : List Char → Option ℚ
  | [] => none
  | c :: rest =>
      match tryMatchAt (c :: rest) with
      | some v => some v
      | none => searchNum rest

/-- KeithleyConnection._extract_first_float: strip the raw response, keep
the text before the first comma, and scan it for the first numeric token
of the tolerant regex; the token value is returned exactly. -/
def extractFirstFloat (raw : String) : Option ℚ :=
  searchNum ((pyStripList raw.data).takeWhile (fun c => c ≠ ','))

/-! ### The instrument session model -/

/-- The two command dialects selected at connect time. -/
inductive Mode where
  | scpi
  | tsp2600
deriving DecidableEq

/-- The mutable connection state the claims observe: whether an
instrument handle is present, the selected dialect, and the VISA timeout
in milliseconds. -/
structure ConnState where
  connected : Bool
  mode : Mode
  timeout : ℚ
deriving DecidableEq

/-- Oracle outcomes for the instrument round trips performed by one
operation: the enable-output exchange, the single blocking sweep query
(whose answer is the raw response text), and the error-queue drain. -/
structure SessionEnv where
  enableOutput : Except String Unit
  sweepResp : Except String String
  errCheck : Except String Unit

/-- Transport actions, recorded in order; dispatch carries the VISA
timeout in effect when the blocking sweep query is issued. -/
inductive WireEvent where
  | enableOut
  | setLevel (v : ℚ)
  | setLimit (amps : ℚ)
  | dispatch (timeoutMs : ℚ)
  | errCheck
deriving DecidableEq

/-- KeithleyConnection.set_voltage: connection check, pure validation,
then enable output, write the level (dialect-specific text abstracted to
the carried level) and drain instrument errors. -/
def setVoltage (env : SessionEnv) (st : ConnState) (v : PyFloat) :
    Except String Unit × List WireEvent :=
  if st.connected = false then (.error "Not connected", [])
  else
    match validateVoltage v with
    | .error e => (.error e, [])
    | .ok _ =>
      match env.enableOutput with
      | .error e => (.error e, [WireEvent.enableOut])
      | .ok _ =>
        match env.errCheck with
        | .error e =>
            (.error e, [WireEvent.enableOut, WireEvent.setLevel v.toQ, WireEvent.errCheck])
        | .ok _ =>
            (.ok (), [WireEvent.enableOut, WireEvent.setLevel v.toQ, WireEvent.errCheck])

/-- KeithleyConnection.set_current_compliance_ua: connection check, pure
validation, conversion to amps, write the limit and drain instrument
errors. -/
def setComplianceUa (env : SessionEnv) (st : ConnState) (c : PyFloat) :
    Except String Unit × List WireEvent :=
  if st.connected = false then (.error "Not connected", [])
  else
    match validateCompliance c with
    | .error e => (.error e, [])
    | .ok _ =>
      match env.errCheck with
      | .error e =>
          (.error e, [WireEvent.setLimit (c.toQ * (1 / 1000000)), WireEvent.errCheck])
      | .ok _ =>
          (.ok (), [WireEvent.setLimit (c.toQ * (1 / 1000000)), WireEvent.errCheck])

/-- The failure taxonomy of measure_current. -/
inductive MeasureErr where
  | notConnected
  | transport (e : String)
  | unexpectedResponse (raw : String)
  | overrange
deriving DecidableEq

/-- KeithleyConnection.measure_current applied to the outcome of the
dialect-specific query: parse the first numeric token of the response and
reject magnitudes at or beyond the Keithley overflow sentinel 9.9e37. -/
def measureCurrent (st : ConnState) (resp : Except String String) :
    Except MeasureErr ℚ :=
  if st.connected = false then .error .notConnected
  else
    match resp with
    | .error e => .error (.transport e)
    | .ok raw =>
      match extractFirstFloat raw with
      | none => .error (.unexpectedResponse raw)
      | some v => if (99 * 10 ^ 36 : ℚ) ≤ |v| then .error .overrange else .ok v

/-! ### Python float(str) conversion, for the fast-sweep result parsing -/

/-- Exponent digits of a float literal: they must be non-empty and run to
the end of the string. -/
def pyExpDigits (cs : List Char) : Option ℤ :=
  if cs ≠ [] ∧ cs.all Char.isDigit then some (natOfDigits cs : ℤ) else none

/-- Tail of a float literal after the mantissa: either nothing or a
complete exponent part; anything else makes the conversion fail. -/
def pyExpTail : List Char → Option ℤ
  | [] => some 0
  | c :: rest =>
      if c = 'e' ∨ c = 'E' then
        match rest with
        | '+' :: r => pyExpDigits r
        | '-' :: r => (pyExpDigits r).map Neg.neg
        | r => pyExpDigits r
      else none

/-- Unsigned body of a float literal: digits with an optional dot and
fraction (at least one digit overall), then an optional exponent. -/
def pyFloatBody (cs : List Char) : Option ℚ :=
  let intDs := cs.takeWhile Char.isDigit
  match cs.dropWhile Char.isDigit with
  | '.' :: r2 =>
      let fracDs := r2.takeWhile Char.isDigit
      if intDs = [] ∧ fracDs = [] then none
      else (pyExpTail (r2.dropWhile Char.isDigit)).map fun e =>
        tokenVal intDs fracDs e
  | r2 =>
      if intDs = [] then none
      else (pyExpTail r2).map fun e => tokenVal intDs [] e

/-- Python float(str) on finite decimal literals: strip whitespace, an
optional sign, then a complete numeric literal (the non-finite spellings
inf and nan, which the instrument never emits in the %.12g/%.12e pair
format, are treated as conversion failures). -/
def pyFloatOfList (cs0 : List Char) : Option ℚ :=
  match pyStripList cs0 with
  | '+' :: r => pyFloatBody r
  | '-' :: r => (pyFloatBody r).map Neg.neg
  | r => pyFloatBody r

/-- Python str.split on a single separator character (keeping empty
fields, as the list form of str.split with an explicit separator does). -/
def splitOnChar (sep : Char) : List Char → List (List Char)
  | [] => [[]]
  | c :: rest =>
      match splitOnChar sep rest with
      | [] => [[c]]
      | g :: gs => if c = sep then [] :: g :: gs else (c :: g) :: gs

/-- Python s.split(sep, 1): the text before the first separator and the
text after it, or failure when the separator does not occur. -/
def splitFirst (sep : Char) (cs : List Char) : Option (List Char × List Char) :=
  match cs.dropWhile (fun c => c ≠ sep) with
  | [] => none
  | _ :: after => some (cs.takeWhile (fun c => c ≠ sep), after)

/-- One v,i pair of the fast-sweep response: split at the first comma and
convert both sides with float(); any failure skips the pair. -/
def parsePair (cs : List Char) : Option (ℚ × ℚ) :=
  match splitFirst ',' cs with
  | none => none
  | some (sv, si) =>
      match pyFloatOfList sv, pyFloatOfList si with
      | some a, some b => some (a, b)
      | _, _ => none

/-- run_tsp_sweep response parsing: strip the raw text, split on
semicolons, drop empty fields, and keep every pair both of whose halves
convert. -/
def parseSweepPairs (raw : String) : List (ℚ × ℚ) :=
  (((splitOnChar ';' (pyStripList raw.data)).filter (fun p => p ≠ [])).filterMap parsePair)

/-- Python: delay must be a finite number that is not negative. -/
def delayValid : PyFloat → Bool
  | .finite q => decide (0 ≤ q)
  | _ => false

/-- The per-point validation loop of run_tsp_sweep: the error of the
first voltage rejected by _validate_voltage, if any. -/
def firstInvalid (vs : List PyFloat) : Option String :=
  vs.findSome? fun v =>
    match validateVoltage v with
    | .error e => some e
    | .ok _ => none

/-- The try block of run_tsp_sweep, run with the raised timeout: enable
output, issue the single blocking query, parse the accumulated text and
drain instrument errors; the event trace records each transport action. -/
def tspTryBlock (env : SessionEnv) (timeoutNow : ℚ) :
    Except String (List (ℚ × ℚ)) × List WireEvent :=
  match env.enableOutput with
  | .error e => (.error e, [WireEvent.enableOut])
  | .ok _ =>
    match env.sweepResp with
    | .error e => (.error e, [WireEvent.enableOut, WireEvent.dispatch timeoutNow])
    | .ok raw =>
      let result := parseSweepPairs raw
      if result = [] then
        (.error "Instrument fast sweep returned no parseable data",
         [WireEvent.enableOut, WireEvent.dispatch timeoutNow])
      else
        match env.errCheck with
        | .error e =>
            (.error e,
             [WireEvent.enableOut, WireEvent.dispatch timeoutNow, WireEvent.errCheck])
        | .ok _ =>
            (.ok result,
             [WireEvent.enableOut, WireEvent.dispatch timeoutNow, WireEvent.errCheck])

/-- KeithleyConnection.run_tsp_sweep: connection and dialect checks, the
empty-list early return, delay and per-point validation, then the
timeout raise (int truncates the estimate, which is at least 20000, so it
is a floor), the try block, and the finally block that writes the
original timeout back on every exit path. -/
def runTspSweep (env : SessionEnv) (st : ConnState) (voltages : List PyFloat)
    (delay : PyFloat) :
    Except String (List (ℚ × ℚ)) × ConnState × List WireEvent :=
  if st.connected = false then (.error "Not connected", st, [])
  else if st.mode ≠ Mode.tsp2600 then
    (.error "Fast instrument sweep is available only for Keithley 2600 TSP mode", st, [])
  else if voltages = [] then (.ok [], st, [])
  else if delayValid delay = false then
    (.error "Delay must be a non-negative finite number", st, [])
  else
    match firstInvalid voltages with
    | some e => (.error e, st, [])
    | none =>
      let original := st.timeout
      let estimated : ℤ :=
        ⌊max 20000 (min 300000
          ((voltages.length : ℚ) * max delay.toQ (1 / 1000000) * 1000 * 8))⌋
      let (res, events) := tspTryBlock env (max original (estimated : ℚ))
      (res, { st with timeout := original }, events)

/-! ### The GPIB bus-index fallback of the transport connector -/

/-- Is the needle a prefix of the haystack (character lists). -/
def startsWithList : List Char → List Char → Bool
  | _, [] => true
  | [], _ :: _ => false
  | h :: hs, n :: ns => h = n && startsWithList hs ns

/-- Python substring containment (needle in hay) on character lists. -/
def containsSubList (needle : List Char) : List Char → Bool
  | [] => needle.isEmpty
  | c :: rest => startsWithList (c :: rest) needle || containsSubList needle rest

/-- Python substring containment on strings. -/
def containsSub (hay needle : String) : Bool :=
  containsSubList needle.data hay.data

/-- KeithleyConnection._is_resource_not_present_error: the VISA status
code 0xBFFF0011 or its standard text appears in the message. -/
def isResourceNotPresentError (msg : String) : Bool :=
  containsSub msg "0xBFFF0011" || containsSub msg "Insufficient location information"

/-- Case-insensitive removal of a fixed word from the head of the input,
returning the rest. -/
def dropWordCI : List Char → List Char → Option (List Char)
  | [], cs => some cs
  | _ :: _, [] => none
  | w :: ws, c :: cs => if c.toLower = w.toLower then dropWordCI ws cs else none

/-- The anchored case-insensitive pattern GPIB(digits)::(digits)::INSTR of
_open_resource_with_gpib_fallback: the bus index as a number (as int()
reads the first group) and the address digits as text (reused verbatim in
the sibling name). -/
def parseGpib (s : String) : Option (ℕ × String) :=
  match dropWordCI "gpib".data s.data with
  | none => none
  | some r1 =>
      let busDs := r1.takeWhile Char.isDigit
      if busDs = [] then none
      else
        match r1.dropWhile Char.isDigit with
        | ':' :: ':' :: r3 =>
            let addrDs := r3.takeWhile Char.isDigit
            if addrDs = [] then none
            else
              match r3.dropWhile Char.isDigit with
              | ':' :: ':' :: r5 =>
                  match dropWordCI "instr".data r5 with
                  | some [] => some (natOfDigits busDs, ⟨addrDs⟩)
                  | _ => none
              | _ => none
        | _ => none

/-- The candidate list: the requested name, and for a GPIB name at bus 0
or 1 also the sibling bus. -/
def gpibCandidates (name : String) : List String :=
  match parseGpib name with
  | some (0, addr) => [name, "GPIB1::" ++ addr ++ "::INSTR"]
  | some (1, addr) => [name, "GPIB0::" ++ addr ++ "::INSTR"]
  | _ => [name]

/-- The three ways _open_resource_with_gpib_fallback can end, each
carrying exactly the data its message text interpolates. -/
inductive OpenOutcome where
  | opened (resource : String)
  | abortedOther (candidate : String) (err : String)
  | exhausted (tried : List String) (lastErr : String)
deriving DecidableEq

/-- The resource names the final message text of an outcome mentions. -/
def failureNames : OpenOutcome → List String
  | .opened r => [r]
  | .abortedOther c _ => [c]
  | .exhausted tried _ => tried

/-- The candidate loop of _open_resource_with_gpib_fallback, also
returning the list of candidates actually attempted: each failure is
appended to the error list; a failure that is not of the not-present
class aborts at once; an exhausted candidate list raises the summary
message built from the accumulated errors. -/
def openLoop (openFn : String → Except String Unit) (origName : String) :
    List String → List (String × String) → OpenOutcome × List String
  | [], errs =>
      (.exhausted (if errs.isEmpty then [origName] else errs.map Prod.fst)
         (match errs.getLast? with
          | some pe => pe.2
          | none => "Unknown error"),
       errs.map Prod.fst)
  | c :: rest, errs =>
      match openFn c with
      | .ok _ => (.opened c, errs.map Prod.fst ++ [c])
      | .error e =>
          if isResourceNotPresentError e then
            openLoop openFn origName rest (errs ++ [(c, e)])
          else (.abortedOther c e, errs.map Prod.fst ++ [c])

/-- KeithleyConnection._open_resource_with_gpib_fallback over an oracle
transport: run the candidate loop over the candidate list. -/
def openWithGpibFallback (openFn : String → Except String Unit) (name : String) :
    OpenOutcome × List String :=
  openLoop openFn name (gpibCandidates name) []

/-- A concrete transport in which the requested GPIB0 resource fails with
a not-present error and the GPIB1 sibling fails with a timeout. -/
def openFnMixed : String → Except String Unit := fun r =>
  if r = "GPIB0::5::INSTR" then
    .error "VI_ERROR_RSRC_NFOUND (0xBFFF0011): Insufficient location information"
  else .error "VI_ERROR_TMO (0xBFFF0015): Timeout expired before operation completed"

/-! ### Waveform generators (gui.py) -/

/-- Python round() to an integer: round half to even. -/
def roundHalfEven (q : ℚ) : ℤ :=
  if q - ⌊q⌋ < 1 / 2 then ⌊q⌋
  else if (1 : ℚ) / 2 < q - ⌊q⌋ then ⌊q⌋ + 1
  else if ⌊q⌋ % 2 = 0 then ⌊q⌋ else ⌊q⌋ + 1

/-- Python round(x, 12): round half to even at the twelfth decimal. -/
def pyRound12 (q : ℚ) : ℚ :=
  (roundHalfEven (q * 10 ^ 12) : ℚ) / 10 ^ 12

/-- The while-loop guard of KeithleyUI._build_sweep_values; the source
selects one of the two loops once on the sign of step, which never
changes, so testing the sign in every iteration is the same loop. -/
def sweepGuard (stop step value : ℚ) : Bool :=
  if 0 < step then decide (value ≤ stop + |step| / 1000)
  else decide (stop - |step| / 1000 ≤ value)

/-- The while loop of KeithleyUI._build_sweep_values, indexed by fuel:
none means the available fuel was exhausted with the guard still true (in
particular, a diverging loop yields none for every fuel). -/
def sweepLoop (stop step : ℚ) : ℕ → ℚ → Option (List ℚ)
  | 0, value => if sweepGuard stop step value then none else some []
  | fuel + 1, value =>
      if sweepGuard stop step value then
        (sweepLoop stop step fuel (value + step)).map (fun l => pyRound12 value :: l)
      else some []

/-- KeithleyUI._build_sweep_values: an immediate empty result when the
sign of step disagrees with stop - start, otherwise the stepping loop. -/
def buildSweepValues (fuel : ℕ) (start stop step : ℚ) : Option (List ℚ) :=
  if (stop - start) * step < 0 then some []
  else sweepLoop stop step fuel start

/-- The generator terminates on an input when some fuel suffices. -/
def SweepTerminates (start stop step : ℚ) : Prop :=
  ∃ n l, buildSweepValues n start stop step = some l

/-- The cycle-id blocks appended by the for-loops over range(2, cycles+1):
m blocks of len copies each, with ids counting up from i. -/
def cycleIdBlocks (len : ℕ) (i : ℤ) : ℕ → List ℤ
  | 0 => []
  | m + 1 => List.replicate len i ++ cycleIdBlocks len (i + 1) m

/-- KeithleyUI._build_simple_cycle_values_with_cycles: four chained linear
segments 0 to peak to 0 to -peak to 0 sharing boundary points, repeated
with the leading shared zero dropped for every later cycle; the magnitudes
of peak and step are taken up front. -/
def buildSimpleCycleValuesWithCycles (fuel : ℕ) (peakV step : ℚ) (cycles : ℤ) :
    Option (List ℚ × List ℤ) :=
  if |step| = 0 ∨ cycles < 1 then some ([], [])
  else if |peakV| = 0 then some ([(0 : ℚ)], [(1 : ℤ)])
  else
    match buildSweepValues fuel 0 |peakV| |step|,
          buildSweepValues fuel |peakV| 0 (-|step|),
          buildSweepValues fuel 0 (-|peakV|) (-|step|),
          buildSweepValues fuel (-|peakV|) 0 |step| with
    | some seg1, some seg2, some seg3, some seg4 =>
        if seg1 = [] ∨ seg2 = [] ∨ seg3 = [] ∨ seg4 = [] then some ([], [])
        else
          let single := seg1 ++ seg2.tail ++ seg3.tail ++ seg4.tail
          some (single ++ (List.replicate (cycles - 1).toNat single.tail).flatten,
                List.replicate single.length (1 : ℤ) ++
                  cycleIdBlocks single.tail.length 2 (cycles - 1).toNat)
    | _, _, _, _ => none

/-- The segment loop of KeithleyUI._build_custom_sequence_values_with_cycles:
a one-point segment when the endpoints coincide, otherwise a linear sweep
with the step magnitude signed toward the segment direction; every
chained segment after the first drops its shared first point; an empty
segment aborts the whole generation (the inner none), and exhausted fuel
propagates as the outer none. -/
def buildSegmentList (fuel : ℕ) (stepMag : ℚ) :
    List (ℚ × ℚ) → Bool → Option (Option (List ℚ))
  | [], _ => some (some [])
  | (a, b) :: rest, isFirst =>
      match (if a = b then some [pyRound12 a]
             else buildSweepValues fuel a b (if a < b then stepMag else -stepMag)) with
      | none => none
      | some seg =>
          if seg = [] then some none
          else
            match buildSegmentList fuel stepMag rest false with
            | none => none
            | some none => some none
            | some (some restVals) =>
                some (some ((if isFirst then seg else seg.tail) ++ restVals))

/-- KeithleyUI._build_custom_sequence_values_with_cycles: guard on step,
cycle count and segment list, build the chained single template, then
repeat its tail for the later cycles with incrementing cycle ids. -/
def buildCustomSequenceValuesWithCycles (fuel : ℕ) (segments : List (ℚ × ℚ))
    (step : ℚ) (cycles : ℤ) : Option (List ℚ × List ℤ) :=
  if |step| = 0 ∨ cycles < 1 ∨ segments = [] then some ([], [])
  else
    match buildSegmentList fuel |step| segments true with
    | none => none
    | some none => some ([], [])
    | some (some single) =>
        some (single ++ (List.replicate (cycles - 1).toNat single.tail).flatten,
              List.replicate single.length (1 : ℤ) ++
                cycleIdBlocks single.tail.length 2 (cycles - 1).toNat)

/-- KeithleyUI._build_hold_values: no samples for a non-positive duration
or interval, otherwise max(1, round(duration / interval)) copies of the
rounded target voltage. -/
def buildHoldValues (voltage holdT sampleInterval : ℚ) : List ℚ :=
  if holdT ≤ 0 ∨ sampleInterval ≤ 0 then []
  else List.replicate (max 1 (roundHalfEven (holdT / sampleInterval))).toNat
    (pyRound12 voltage)

/-- KeithleyUI._build_wrer_values_with_cycles: the write-read-erase-read
hold template, repeated whole (no point sharing) for every later cycle
with incrementing cycle ids. -/
def buildWrerValuesWithCycles (writeV writeT readV readT eraseV eraseT
    sampleInterval : ℚ) (cycles : ℤ) : List ℚ × List ℤ :=
  if cycles < 1 then ([], [])
  else
    let single := buildHoldValues writeV writeT sampleInterval ++
      buildHoldValues readV readT sampleInterval ++
      buildHoldValues eraseV eraseT sampleInterval ++
      buildHoldValues readV readT sampleInterval
    if single = [] then ([], [])
    else
      (single ++ (List.replicate (cycles - 1).toNat single).flatten,
       List.replicate single.length (1 : ℤ) ++
         cycleIdBlocks single.length 2 (cycles - 1).toNat)

/-- The per-phase sample count the spec formula claims, as the code
computes it for a positive duration. -/
def phaseSamples (holdT voltage sampleInterval : ℚ) : List ℚ :=
  if 0 < holdT then
    List.replicate (max 1 (roundHalfEven (holdT / sampleInterval))).toNat
      (pyRound12 voltage)
  else []

/-- The id properties of one returned (values, ids) pair: non-decreasing,
starting at 1, covering every integer up to some bound K that is at most
the requested cycle count. -/
def CycleIdsOk (ids : List ℤ) (cycles : ℤ) : Prop :=
  ids.Sorted (· ≤ ·) ∧ ids.head? = some 1 ∧
    ∃ K : ℤ, 1 ≤ K ∧ K ≤ cycles ∧ (∀ j ∈ ids, 1 ≤ j ∧ j ≤ K) ∧
      ∀ j : ℤ, 1 ≤ j → j ≤ K → j ∈ ids

/-- A concrete transport in which the requested GPIB0 resource fails with
a not-present error and the GPIB1 sibling opens. -/
def openFnSibling : String → Except String Unit := fun r =>
  if r = "GPIB0::7::INSTR" then
    .error "VI_ERROR_RSRC_NFOUND (0xBFFF0011): resource not present"
  else .ok ()

/-! ### Claim C1: the safety validators -/

/-- Claim C1: validateVoltage accepts exactly the finite inputs of
magnitude at most 210 and validateCompliance accepts exactly the finite
inputs in (0, 1000000]; both run before any transport traffic, so a
rejected input produces an empty wire trace in set_voltage and
set_current_compliance_ua. -/
theorem C1_validator_bounds (v c : PyFloat) :
    (validateVoltage v = .ok () ↔ ∃ q, v = .finite q ∧ |q| ≤ 210) ∧
    (validateCompliance c = .ok () ↔ ∃ q, c = .finite q ∧ 0 < q ∧ q ≤ 1000000) ∧
    (∀ env st e, validateVoltage v = .error e → (setVoltage env st v).2 = []) ∧
    (∀ env st e, validateCompliance c = .error e → (setComplianceUa env st c).2 = []) := by
  refine ⟨?_, ?_, ?_, ?_⟩
  · cases v with
    | finite q =>
        simp only [validateVoltage, MAX_ABS_VOLTAGE]
        split_ifs with h
        · simp only [reduceCtorEq, false_iff]
          rintro ⟨q', hq', hle⟩
          cases hq'
          exact absurd hle (not_le.mpr h)
        · simp only [true_iff]
          exact ⟨q, rfl, not_lt.mp h⟩
    | nan => simp [validateVoltage]
    | inf => simp [validateVoltage]
    | ninf => simp [validateVoltage]
  · cases c with
    | finite q =>
        simp only [validateCompliance, MAX_COMPLIANCE_UA]
        split_ifs with h1 h2
        · simp only [reduceCtorEq, false_iff]
          rintro ⟨q', hq', hpos, hle⟩
          cases hq'
          exact absurd hpos (not_lt.mpr h1)
        · simp only [reduceCtorEq, false_iff]
          rintro ⟨q', hq', hpos, hle⟩
          cases hq'
          exact absurd hle (not_le.mpr h2)
        · simp only [true_iff]
          exact ⟨q, rfl, lt_of_not_le h1, not_lt.mp h2⟩
    | nan => simp [validateCompliance]
    | inf => simp [validateCompliance]
    | ninf => simp [validateCompliance]
  · intro env st e h
    unfold setVoltage
    split
    · rfl
    · rw [h]
  · intro env st e h
    unfold setComplianceUa
    split
    · rfl
    · rw [h]

/-- Witness for C1 at concrete inputs: 100 V and 100 uA are accepted. -/
theorem C1_validator_bounds_witness :
    validateVoltage (.finite 100) = .ok () ∧
    validateCompliance (.finite 100) = .ok () :=
  ⟨(C1_validator_bounds (.finite 100) (.finite 100)).1.mpr
      ⟨100, rfl, by norm_num⟩,
   (C1_validator_bounds (.finite 100) (.finite 100)).2.1.mpr
      ⟨100, rfl, by norm_num, by norm_num⟩⟩

/-! ### Claim C2: the overflow sentinel in measure_current -/

/-- Claim C2: on a connected session, whenever the numeric value parsed
from the instrument response has magnitude at least 9.9e37 the
measurement fails with the overrange error, and whenever a numeric token
is found with magnitude below the sentinel the parsed value is returned. -/
theorem C2_overrange_sentinel (st : ConnState) (raw : String) (v : ℚ)
    (hc : st.connected = true) (hex : extractFirstFloat raw = some v) :
    ((99 * 10 ^ 36 : ℚ) ≤ |v| →
      measureCurrent st (.ok raw) = .error .overrange) ∧
    (|v| < 99 * 10 ^ 36 → measureCurrent st (.ok raw) = .ok v) := by
  simp only [measureCurrent, hc, Bool.true_eq_false, if_false, hex]
  constructor
  · intro h
    rw [if_pos h]
  · intro h
    rw [if_neg (not_le.mpr h)]

/-- Witness for C2: the response 1e38 parses to 10^38 and is rejected as
overrange rather than returned. -/
theorem C2_overrange_sentinel_witness :
    measureCurrent ⟨true, Mode.tsp2600, 5000⟩ (.ok "1e38") = .error .overrange := by
  have h : extractFirstFloat "1e38" =
      some (tokenVal ['1'] [] (natOfDigits ['3', '8'])) := rfl
  refine (C2_overrange_sentinel ⟨true, Mode.tsp2600, 5000⟩ "1e38" _ rfl h).1 ?_
  have h1 : natOfDigits ['3', '8'] = 38 := by decide
  have h2 : natOfDigits ['1'] = 1 := by decide
  have h0 : natOfDigits ([] : List Char) = 0 := rfl
  rw [tokenVal, h0, h1, h2]
  norm_num

/-! ### Claims C9 and C6: the fast instrument-timed sweep -/

/-- Claim C9: with a connected script-dialect session, the fast sweep on
an empty voltage list returns an empty result immediately: the delay is
not validated (even a NaN delay is accepted), no per-point validation
runs, no transport action happens, and the state (in particular the
timeout) is untouched. -/
theorem C9_empty_fast_sweep (env : SessionEnv) (st : ConnState) (delay : PyFloat)
    (hc : st.connected = true) (hm : st.mode = Mode.tsp2600) :
    runTspSweep env st [] delay = (.ok [], st, []) := by
  simp [runTspSweep, hc, hm]

/-- Witness for C9: a concrete connected session with a NaN delay. -/
theorem C9_empty_fast_sweep_witness :
    runTspSweep ⟨.ok (), .ok "", .ok ()⟩ ⟨true, Mode.tsp2600, 5000⟩ [] .nan =
      (.ok [], ⟨true, Mode.tsp2600, 5000⟩, []) :=
  C9_empty_fast_sweep _ _ _ rfl rfl

/-- All voltages valid means the per-point validation loop raises
nothing. -/
theorem firstInvalid_eq_none (vs : List PyFloat)
    (h : ∀ v ∈ vs, validateVoltage v = .ok ()) : firstInvalid vs = none := by
  induction vs with
  | nil => rfl
  | cons a as ih =>
      have ha := h a (List.mem_cons_self a as)
      simp only [firstInvalid, List.findSome?_cons] at *
      rw [ha]
      exact ih fun v hv => h v (List.mem_cons_of_mem _ hv)

/-- Every dispatch event of the try block carries the timeout it was
called with. -/
theorem tspTryBlock_dispatch (env : SessionEnv) (T t : ℚ)
    (hmem : WireEvent.dispatch t ∈ (tspTryBlock env T).2) : t = T := by
  unfold tspTryBlock at hmem
  rcases henv : env.enableOutput with e | u
  · rw [henv] at hmem
    simp at hmem
  · rw [henv] at hmem
    rcases hsr : env.sweepResp with e | raw
    · rw [hsr] at hmem
      simp at hmem
      exact hmem
    · rw [hsr] at hmem
      by_cases hp : parseSweepPairs raw = []
      · simp [hp] at hmem
        exact hmem
      · rcases hec : env.errCheck with e | u2
        · simp [hp, hec] at hmem
          exact hmem
        · simp [hp, hec] at hmem
          exact hmem

/-- Claim C6: for a connected script-dialect session with a non-empty,
fully valid request, every dispatch of the blocking sweep query happens
at timeout max(original, clamp(20000, points * max(delay, 1e-6) * 1000 *
8, 300000)) milliseconds (the source truncates the clamp with int, a
floor here), and the state, in particular the original timeout, is
restored on every exit path of the call: normal return, parse failure
and device-error failure alike (the environment is universally
quantified over all of these outcomes). -/
theorem C6_fast_sweep_timeout (env : SessionEnv) (st : ConnState)
    (voltages : List PyFloat) (delay : PyFloat)
    (hc : st.connected = true) (hm : st.mode = Mode.tsp2600) (hne : voltages ≠ [])
    (hvs : ∀ v ∈ voltages, validateVoltage v = .ok ())
    (hd : delayValid delay = true) :
    (runTspSweep env st voltages delay).2.1 = st ∧
    ∀ t : ℚ, WireEvent.dispatch t ∈ (runTspSweep env st voltages delay).2.2 →
      t = max st.timeout
        ((⌊max 20000 (min 300000
            ((voltages.length : ℚ) * max delay.toQ (1 / 1000000) * 1000 * 8))⌋ : ℤ) : ℚ) := by
  have hfi := firstInvalid_eq_none voltages hvs
  obtain ⟨cn, md, tm⟩ := st
  simp only at hc hm
  subst hc
  subst hm
  simp only [runTspSweep, Bool.true_eq_false, if_false, hd, hfi]
  simp only [ne_eq, not_true_eq_false, if_false, if_neg hne]
  constructor
  · trivial
  · intro t hmem
    exact tspTryBlock_dispatch env _ t hmem

/-- Witness for C6: one point at 1 V with zero delay against an
all-success transport; the state comes back unchanged. -/
theorem C6_fast_sweep_timeout_witness :
    (runTspSweep ⟨.ok (), .ok "1,0.5;", .ok ()⟩ ⟨true, Mode.tsp2600, 5000⟩
        [.finite 1] (.finite 0)).2.1 = ⟨true, Mode.tsp2600, 5000⟩ :=
  (C6_fast_sweep_timeout ⟨.ok (), .ok "1,0.5;", .ok ()⟩ ⟨true, Mode.tsp2600, 5000⟩
      [.finite 1] (.finite 0) rfl rfl (by simp)
      (by
        intro v hv
        rw [List.mem_singleton] at hv
        subst hv
        norm_num [validateVoltage, MAX_ABS_VOLTAGE])
      rfl).1

/-! ### Claim C3: GPIB bus-index fallback -/

/-- Claim C3, corrected: for a GPIB name at bus 0 or 1, a not-present
open failure triggers exactly one retry at the sibling bus and any other
failure aborts at once without trying the alternate; when every attempt
fails with a not-present error the summary message enumerates every
attempted resource together with the last error, while an abort on the
retried sibling names only the sibling and its error. -/
theorem C3_gpib_fallback_amended (openFn : String → Except String Unit)
    (name addr : String) (bus : ℕ)
    (hparse : parseGpib name = some (bus, addr)) (hbus : bus = 0 ∨ bus = 1) :
    (openFn name = .ok () →
      openWithGpibFallback openFn name = (.opened name, [name])) ∧
    (∀ e, openFn name = .error e → isResourceNotPresentError e = false →
      openWithGpibFallback openFn name = (.abortedOther name e, [name])) ∧
    (∀ e sib,
      sib = (if bus = 0 then "GPIB1::" ++ addr ++ "::INSTR"
             else "GPIB0::" ++ addr ++ "::INSTR") →
      openFn name = .error e → isResourceNotPresentError e = true →
      (openFn sib = .ok () →
        openWithGpibFallback openFn name = (.opened sib, [name, sib])) ∧
      (∀ e2, openFn sib = .error e2 →
        (isResourceNotPresentError e2 = true →
          openWithGpibFallback openFn name =
            (.exhausted [name, sib] e2, [name, sib])) ∧
        (isResourceNotPresentError e2 = false →
          openWithGpibFallback openFn name =
            (.abortedOther sib e2, [name, sib])))) := by
  have hcand : gpibCandidates name =
      [name, (if bus = 0 then "GPIB1::" ++ addr ++ "::INSTR"
              else "GPIB0::" ++ addr ++ "::INSTR")] := by
    rcases hbus with h | h <;> subst h <;> simp [gpibCandidates, hparse]
  refine ⟨?_, ?_, ?_⟩
  · intro h
    unfold openWithGpibFallback
    rw [hcand]
    simp [openLoop, h]
  · intro e h hnp
    unfold openWithGpibFallback
    rw [hcand]
    simp [openLoop, h, hnp]
  · intro e sib hsib h hnp
    subst hsib
    constructor
    · intro h2
      unfold openWithGpibFallback
      rw [hcand]
      simp [openLoop, h, hnp, h2]
    · intro e2 h2
      constructor
      · intro hnp2
        unfold openWithGpibFallback
        rw [hcand]
        simp [openLoop, h, hnp, h2, hnp2]
      · intro hnp2
        unfold openWithGpibFallback
        rw [hcand]
        simp [openLoop, h, hnp, h2, hnp2]

/-- Counterexample to C3 as stated: with a transport whose GPIB0 open is
not-present and whose GPIB1 open is a timeout, two resources are
attempted but the final failure message names only the second one, so it
does not enumerate every attempted resource. -/
theorem C3_gpib_fallback_counterexample :
    (openWithGpibFallback openFnMixed "GPIB0::5::INSTR").2 =
      ["GPIB0::5::INSTR", "GPIB1::5::INSTR"] ∧
    (openWithGpibFallback openFnMixed "GPIB0::5::INSTR").1 =
      .abortedOther "GPIB1::5::INSTR"
        "VI_ERROR_TMO (0xBFFF0015): Timeout expired before operation completed" ∧
    "GPIB0::5::INSTR" ∉
      failureNames (openWithGpibFallback openFnMixed "GPIB0::5::INSTR").1 := by
  refine ⟨by decide, by decide, by decide⟩

/-- Witness for C3 amended: a concrete transport where GPIB0 is absent
and the sibling GPIB1 opens; the retry succeeds at the sibling. -/
theorem C3_gpib_fallback_amended_witness :
    openWithGpibFallback openFnSibling "GPIB0::7::INSTR" =
      (.opened "GPIB1::7::INSTR", ["GPIB0::7::INSTR", "GPIB1::7::INSTR"]) :=
  ((C3_gpib_fallback_amended openFnSibling "GPIB0::7::INSTR" "7" 0 rfl (Or.inl rfl)).2.2
      "VI_ERROR_RSRC_NFOUND (0xBFFF0011): resource not present"
      "GPIB1::7::INSTR" rfl rfl (by decide)).1 rfl

/-! ### Claim C4: totality of the linear sweep generator -/

/-- A false loop guard ends the loop at once with an empty tail, whatever
fuel is left. -/
theorem sweepLoop_guard_false {stop step v : ℚ}
    (h : sweepGuard stop step v = false) (n : ℕ) :
    sweepLoop stop step n v = some [] := by
  cases n <;> simp [sweepLoop, h]

/-- With step = 0 and the loop entered at or above stop, the loop never
makes progress: every fuel is exhausted. -/
theorem sweepLoop_step_zero {stop : ℚ} (v : ℚ) (hv : stop ≤ v) :
    ∀ n : ℕ, sweepLoop stop 0 n v = none := by
  have hg : sweepGuard stop 0 v = true := by
    simp [sweepGuard, hv]
  intro n
  induction n with
  | zero => simp [sweepLoop, hg]
  | succ n ih => simp [sweepLoop, hg, add_zero, ih]

/-- With a positive step the loop terminates: any fuel beyond the
remaining distance divided by the step suffices. -/
theorem sweepLoop_term_of_pos {stop step : ℚ} (hstep : 0 < step) :
    ∀ (n : ℕ) (v : ℚ), (stop + |step| / 1000 - v) / step < n →
      ∃ l, sweepLoop stop step n v = some l := by
  intro n
  induction n with
  | zero =>
      intro v h
      rw [Nat.cast_zero, div_lt_iff₀ hstep, zero_mul] at h
      have hg : sweepGuard stop step v = false := by
        simp only [sweepGuard, if_pos hstep, decide_eq_false_iff_not, not_le]
        linarith
      exact ⟨[], sweepLoop_guard_false hg 0⟩
  | succ n ih =>
      intro v h
      cases hg : sweepGuard stop step v with
      | false => exact ⟨[], sweepLoop_guard_false hg (n + 1)⟩
      | true =>
          obtain ⟨l, hl⟩ := ih (v + step) (by
            rw [div_lt_iff₀ hstep] at h ⊢
            push_cast at h ⊢
            linarith)
          exact ⟨pyRound12 v :: l, by simp [sweepLoop, hg, hl]⟩

/-- With a negative step the loop terminates: any fuel beyond the
remaining distance divided by the step magnitude suffices. -/
theorem sweepLoop_term_of_neg {stop step : ℚ} (hstep : step < 0) :
    ∀ (n : ℕ) (v : ℚ), (v - (stop - |step| / 1000)) / (-step) < n →
      ∃ l, sweepLoop stop step n v = some l := by
  have hns : (0 : ℚ) < -step := by linarith
  intro n
  induction n with
  | zero =>
      intro v h
      rw [Nat.cast_zero, div_lt_iff₀ hns, zero_mul] at h
      have hg : sweepGuard stop step v = false := by
        simp only [sweepGuard, if_neg (not_lt.mpr hstep.le),
          decide_eq_false_iff_not, not_le]
        linarith
      exact ⟨[], sweepLoop_guard_false hg 0⟩
  | succ n ih =>
      intro v h
      cases hg : sweepGuard stop step v with
      | false => exact ⟨[], sweepLoop_guard_false hg (n + 1)⟩
      | true =>
          obtain ⟨l, hl⟩ := ih (v + step) (by
            rw [div_lt_iff₀ hns] at h ⊢
            push_cast at h ⊢
            linarith)
          exact ⟨pyRound12 v :: l, by simp [sweepLoop, hg, hl]⟩

/-- Counterexample to C4 as stated: at step = 0 with start = 1 and
stop = 0 the generator loop never terminates, so no fuel produces a
result at all, let alone the claimed empty list. -/
theorem C4_sweep_step_zero_counterexample : ¬ SweepTerminates 1 0 0 := by
  rintro ⟨n, l, hl⟩
  rw [buildSweepValues, if_neg (by norm_num)] at hl
  rw [sweepLoop_step_zero 1 (by norm_num) n] at hl
  cases hl

/-- Claim C4, corrected: the generator terminates for every nonzero step,
and returns the empty list whenever the sign of step disagrees with
stop - start; but at step = 0 it terminates (with the empty list) only
when start < stop, and fails to terminate whenever stop is at most
start. -/
theorem C4_sweep_totality_amended (start stop step : ℚ) :
    (step ≠ 0 → SweepTerminates start stop step) ∧
    (∀ n, (stop - start) * step < 0 →
      buildSweepValues n start stop step = some []) ∧
    (step = 0 → start < stop → ∀ n,
      buildSweepValues n start stop step = some []) ∧
    (step = 0 → stop ≤ start → ¬ SweepTerminates start stop step) := by
  refine ⟨?_, ?_, ?_, ?_⟩
  · intro hstep
    by_cases hsign : (stop - start) * step < 0
    · exact ⟨0, [], by simp [buildSweepValues, hsign]⟩
    · rcases lt_or_gt_of_ne hstep with hneg | hpos
      · obtain ⟨n, hn⟩ := exists_nat_gt ((start - (stop - |step| / 1000)) / (-step))
        obtain ⟨l, hl⟩ := sweepLoop_term_of_neg hneg n start hn
        exact ⟨n, l, by simp [buildSweepValues, hsign, hl]⟩
      · obtain ⟨n, hn⟩ := exists_nat_gt ((stop + |step| / 1000 - start) / step)
        obtain ⟨l, hl⟩ := sweepLoop_term_of_pos hpos n start hn
        exact ⟨n, l, by simp [buildSweepValues, hsign, hl]⟩
  · intro n h
    simp [buildSweepValues, h]
  · intro h0 hlt n
    subst h0
    have hg : sweepGuard stop 0 start = false := by
      simp [sweepGuard, not_le.mpr hlt]
    rw [buildSweepValues, if_neg (by norm_num)]
    exact sweepLoop_guard_false hg n
  · intro h0 hge
    subst h0
    rintro ⟨n, l, hl⟩
    rw [buildSweepValues, if_neg (by norm_num)] at hl
    rw [sweepLoop_step_zero start hge n] at hl
    cases hl

/-- Witness for C4 amended: a concrete nonzero step terminates. -/
theorem C4_sweep_totality_amended_witness : SweepTerminates 0 1 (1 / 2) :=
  (C4_sweep_totality_amended 0 1 (1 / 2)).1 (by norm_num)

/-! ### Claim C5: hold-sequence phase sample counts -/

/-- Counterexample to C5 as stated: a zero-duration write phase
contributes no samples at all (writeV = 3 never appears), although the
claimed formula max(1, round(0 / 0.1)) says it contributes one. -/
theorem C5_hold_phases_counterexample :
    buildWrerValuesWithCycles 3 0 1 (1 / 10) (-1) (1 / 10) (1 / 10) 1 =
      ([1, -1, 1], [1, 1, 1]) ∧
    (3 : ℚ) ∉ [(1 : ℚ), -1, 1] ∧
    (max 1 (roundHalfEven ((0 : ℚ) / (1 / 10)))).toNat = 1 := by
  refine ⟨?_, ?_, ?_⟩
  · norm_num [buildWrerValuesWithCycles, buildHoldValues, pyRound12, roundHalfEven,
      cycleIdBlocks, List.replicate, List.cons_ne_nil]
  · norm_num
  · norm_num [roundHalfEven]

/-- Claim C5, corrected: with a positive sample interval, each phase of
the write-read-erase-read template contributes exactly
max(1, round(duration / interval)) samples at its rounded target voltage
when its duration is positive, and no samples when its duration is not
positive (the original claim promised one sample even then); in
particular writeT = 0.2 at interval 0.1 still gives exactly 2 points at
writeV before the read phase. -/
theorem C5_hold_phases_amended (wv wt rv rt ev et dt : ℚ) (hdt : 0 < dt) :
    (buildWrerValuesWithCycles wv wt rv rt ev et dt 1).1 =
      phaseSamples wt wv dt ++ phaseSamples rt rv dt ++
        phaseSamples et ev dt ++ phaseSamples rt rv dt := by
  have hh : ∀ t v, buildHoldValues v t dt = phaseSamples t v dt := by
    intro t v
    unfold buildHoldValues phaseSamples
    rcases le_or_lt t 0 with h | h
    · rw [if_pos (Or.inl h), if_neg (not_lt.mpr h)]
    · rw [if_neg (by push_neg; exact ⟨h, hdt⟩), if_pos h]
  have key : (buildWrerValuesWithCycles wv wt rv rt ev et dt 1).1 =
      buildHoldValues wv wt dt ++ buildHoldValues rv rt dt ++
        buildHoldValues ev et dt ++ buildHoldValues rv rt dt := by
    unfold buildWrerValuesWithCycles
    rw [if_neg (by norm_num : ¬(1 : ℤ) < 1)]
    dsimp only
    split_ifs with hc
    · simp only [List.append_eq_nil] at hc
      simp [hc]
    · simp [show ((1 : ℤ) - 1).toNat = 0 from rfl, cycleIdBlocks]
  rw [key, hh wt wv, hh rt rv, hh et ev]

/-- Witness for C5 amended: writeT = 0.2 at interval 0.1 yields exactly
two write samples before the read phase. -/
theorem C5_hold_phases_amended_witness :
    (buildWrerValuesWithCycles 3 (1 / 5) 1 (1 / 10) (-1) (1 / 10) (1 / 10) 1).1 =
      [3, 3, 1, -1, 1] := by
  rw [C5_hold_phases_amended 3 (1 / 5) 1 (1 / 10) (-1) (1 / 10) (1 / 10)
    (by norm_num)]
  norm_num [phaseSamples, pyRound12, roundHalfEven, List.replicate]

/-! ### Claim C7: the simple cycle at peak 1, step 0.5, 2 cycles -/

/-- A loop result obtained with some fuel is preserved by more fuel. -/
theorem sweepLoop_mono {stop step : ℚ} :
    ∀ {n m : ℕ}, n ≤ m → ∀ {v : ℚ} {l : List ℚ},
      sweepLoop stop step n v = some l → sweepLoop stop step m v = some l := by
  intro n
  induction n with
  | zero =>
      intro m hm v l h
      cases hg : sweepGuard stop step v with
      | true =>
          rw [sweepLoop, if_pos hg] at h
          cases h
      | false =>
          rw [sweepLoop_guard_false hg] at h
          cases h
          exact sweepLoop_guard_false hg m
  | succ n ih =>
      intro m hm v l h
      obtain ⟨m', rfl⟩ : ∃ m', m = m' + 1 := ⟨m - 1, by omega⟩
      cases hg : sweepGuard stop step v with
      | false =>
          rw [sweepLoop_guard_false hg] at h
          cases h
          exact sweepLoop_guard_false hg _
      | true =>
          rw [sweepLoop, if_pos hg] at h
          rw [sweepLoop, if_pos hg]
          obtain ⟨l', hl', rfl⟩ := Option.map_eq_some'.mp h
          rw [ih (by omega) hl']
          rfl

/-- A generator result obtained with some fuel is preserved by more
fuel. -/
theorem buildSweepValues_mono {start stop step : ℚ} {n m : ℕ} (hnm : n ≤ m)
    {l : List ℚ} (h : buildSweepValues n start stop step = some l) :
    buildSweepValues m start stop step = some l := by
  unfold buildSweepValues at h ⊢
  split_ifs at h ⊢
  · exact h
  · exact sweepLoop_mono hnm h

/-- A simple-cycle result obtained with some fuel is preserved by more
fuel. -/
theorem buildSimpleCycle_mono {peakV step : ℚ} {cycles : ℤ} {n m : ℕ}
    (hnm : n ≤ m) {r : List ℚ × List ℤ}
    (h : buildSimpleCycleValuesWithCycles n peakV step cycles = some r) :
    buildSimpleCycleValuesWithCycles m peakV step cycles = some r := by
  unfold buildSimpleCycleValuesWithCycles at h ⊢
  split_ifs at h ⊢
  · exact h
  · exact h
  · rcases e1 : buildSweepValues n 0 |peakV| |step| with _ | s1
    · rw [e1] at h
      exact absurd h (by simp)
    · rcases e2 : buildSweepValues n |peakV| 0 (-|step|) with _ | s2
      · rw [e1, e2] at h
        exact absurd h (by simp)
      · rcases e3 : buildSweepValues n 0 (-|peakV|) (-|step|) with _ | s3
        · rw [e1, e2, e3] at h
          exact absurd h (by simp)
        · rcases e4 : buildSweepValues n (-|peakV|) 0 |step| with _ | s4
          · rw [e1, e2, e3, e4] at h
            exact absurd h (by simp)
          · rw [e1, e2, e3, e4] at h
            rw [buildSweepValues_mono hnm e1, buildSweepValues_mono hnm e2,
              buildSweepValues_mono hnm e3, buildSweepValues_mono hnm e4]
            exact h

/-- Claim C7: simpleCycle(peak 1, step 0.5, 2 cycles) is exactly the
nine-point first cycle followed by the eight-point second cycle (the
shared leading zero dropped), 17 points in all, with cycle ids 1 and 2;
and this is the unique result the generator can return for any fuel. -/
theorem C7_simple_cycle_points :
    buildSimpleCycleValuesWithCycles 5 1 (1 / 2) 2 =
      some ([0, 1 / 2, 1, 1 / 2, 0, -(1 / 2), -1, -(1 / 2), 0,
             1 / 2, 1, 1 / 2, 0, -(1 / 2), -1, -(1 / 2), 0],
            [1, 1, 1, 1, 1, 1, 1, 1, 1, 2, 2, 2, 2, 2, 2, 2, 2]) ∧
    ∀ fuel r, buildSimpleCycleValuesWithCycles fuel 1 (1 / 2) 2 = some r →
      r = ([0, 1 / 2, 1, 1 / 2, 0, -(1 / 2), -1, -(1 / 2), 0,
            1 / 2, 1, 1 / 2, 0, -(1 / 2), -1, -(1 / 2), 0],
           [1, 1, 1, 1, 1, 1, 1, 1, 1, 2, 2, 2, 2, 2, 2, 2, 2]) := by
  have h5 : buildSimpleCycleValuesWithCycles 5 1 (1 / 2) 2 =
      some ([0, 1 / 2, 1, 1 / 2, 0, -(1 / 2), -1, -(1 / 2), 0,
             1 / 2, 1, 1 / 2, 0, -(1 / 2), -1, -(1 / 2), 0],
            [1, 1, 1, 1, 1, 1, 1, 1, 1, 2, 2, 2, 2, 2, 2, 2, 2]) := by
    norm_num [buildSimpleCycleValuesWithCycles, buildSweepValues, sweepLoop,
      sweepGuard, pyRound12, roundHalfEven, cycleIdBlocks, abs_of_pos,
      abs_of_nonneg, List.cons_ne_nil, List.replicate]
  refine ⟨h5, ?_⟩
  intro fuel r h
  have hA := buildSimpleCycle_mono (le_max_left fuel 5) h
  have hB := buildSimpleCycle_mono (le_max_right fuel 5) h5
  rw [hA] at hB
  exact Option.some.inj hB

/-- Witness for C7: the unique-result clause applied to the concrete
fuel-5 run. -/
theorem C7_simple_cycle_points_witness :
    ∃ r, buildSimpleCycleValuesWithCycles 5 1 (1 / 2) 2 = some r ∧
      r = ([0, 1 / 2, 1, 1 / 2, 0, -(1 / 2), -1, -(1 / 2), 0,
            1 / 2, 1, 1 / 2, 0, -(1 / 2), -1, -(1 / 2), 0],
           [1, 1, 1, 1, 1, 1, 1, 1, 1, 2, 2, 2, 2, 2, 2, 2, 2]) :=
  ⟨_, C7_simple_cycle_points.1,
    C7_simple_cycle_points.2 5 _ C7_simple_cycle_points.1⟩

/-! ### Claim C10: sign invariance of the simple cycle generator -/

/-- Claim C10: the simple cycle generator depends only on the magnitudes
of peak and step: negating either or both arguments leaves the whole
(values, cycle ids) output unchanged, for every fuel and cycle count. -/
theorem C10_sign_invariance (fuel : ℕ) (peakV step : ℚ) (cycles : ℤ) :
    buildSimpleCycleValuesWithCycles fuel (-peakV) step cycles =
      buildSimpleCycleValuesWithCycles fuel peakV step cycles ∧
    buildSimpleCycleValuesWithCycles fuel peakV (-step) cycles =
      buildSimpleCycleValuesWithCycles fuel peakV step cycles ∧
    buildSimpleCycleValuesWithCycles fuel (-peakV) (-step) cycles =
      buildSimpleCycleValuesWithCycles fuel peakV step cycles := by
  refine ⟨?_, ?_, ?_⟩ <;> simp only [buildSimpleCycleValuesWithCycles, abs_neg]

/-! ### Claim C8: invariants of the (values, cycle ids) pairs -/

/-- Length of the appended id blocks. -/
theorem length_cycleIdBlocks (len : ℕ) (i : ℤ) (k : ℕ) :
    (cycleIdBlocks len i k).length = k * len := by
  induction k generalizing i with
  | zero => simp [cycleIdBlocks]
  | succ k ih =>
      simp [cycleIdBlocks, ih, Nat.succ_mul]
      ring

/-- Membership in the id blocks: only nonempty blocks contribute, and the
members are exactly the k ids counting up from i. -/
theorem mem_cycleIdBlocks {len : ℕ} {i j : ℤ} {k : ℕ} :
    j ∈ cycleIdBlocks len i k ↔ 0 < len ∧ ∃ t : ℕ, t < k ∧ j = i + t := by
  induction k generalizing i with
  | zero => simp [cycleIdBlocks]
  | succ k ih =>
      simp only [cycleIdBlocks, List.mem_append, List.mem_replicate, ih]
      constructor
      · rintro (⟨hlen, rfl⟩ | ⟨hlen, t, ht, rfl⟩)
        · exact ⟨Nat.pos_of_ne_zero hlen, 0, by omega, by simp⟩
        · refine ⟨hlen, t + 1, by omega, ?_⟩
          push_cast
          ring
      · rintro ⟨hlen, t, ht, rfl⟩
        cases t with
        | zero =>
            left
            exact ⟨by omega, by simp⟩
        | succ t =>
            right
            refine ⟨hlen, t, by omega, ?_⟩
            push_cast
            ring

/-- A constant list is sorted. -/
theorem sorted_replicate_int (n : ℕ) (x : ℤ) :
    (List.replicate n x).Sorted (· ≤ ·) := by
  induction n with
  | zero => simp
  | succ n ih =>
      rw [List.replicate_succ, List.sorted_cons]
      exact ⟨fun b hb => le_of_eq (List.eq_of_mem_replicate hb).symm, ih⟩

/-- The id blocks are sorted. -/
theorem sorted_cycleIdBlocks (len : ℕ) (i : ℤ) (k : ℕ) :
    (cycleIdBlocks len i k).Sorted (· ≤ ·) := by
  induction k generalizing i with
  | zero => simp [cycleIdBlocks]
  | succ k ih =>
      rw [cycleIdBlocks, List.Sorted, List.pairwise_append]
      refine ⟨sorted_replicate_int _ _, ih _, ?_⟩
      intro a ha b hb
      rw [List.eq_of_mem_replicate ha]
      obtain ⟨-, t, -, rfl⟩ := mem_cycleIdBlocks.mp hb
      omega

/-- The id list of every generator: a nonempty block of ones followed by
the repeated blocks starting at 2 satisfies the corrected id invariant,
and attains the requested cycle count whenever the repeated block is
nonempty. -/
theorem cycleIds_spec (n m : ℕ) (cycles : ℤ) (hn : 0 < n) (hcy : 1 ≤ cycles) :
    CycleIdsOk (List.replicate n (1 : ℤ) ++ cycleIdBlocks m 2 (cycles - 1).toNat)
      cycles ∧
    (0 < m → ∀ j : ℤ, 1 ≤ j → j ≤ cycles →
      j ∈ List.replicate n (1 : ℤ) ++ cycleIdBlocks m 2 (cycles - 1).toNat) := by
  set k := (cycles - 1).toNat with hk
  have hkz : (k : ℤ) = cycles - 1 := by
    rw [hk]
    exact Int.toNat_of_nonneg (by omega)
  have hsorted : (List.replicate n (1 : ℤ) ++ cycleIdBlocks m 2 k).Sorted (· ≤ ·) := by
    rw [List.Sorted, List.pairwise_append]
    refine ⟨sorted_replicate_int _ _, sorted_cycleIdBlocks _ _ _, ?_⟩
    intro a ha b hb
    rw [List.eq_of_mem_replicate ha]
    obtain ⟨-, t, -, rfl⟩ := mem_cycleIdBlocks.mp hb
    omega
  have hhead : (List.replicate n (1 : ℤ) ++ cycleIdBlocks m 2 k).head? = some 1 := by
    cases n with
    | zero => omega
    | succ n => simp [List.replicate_succ]
  have hmem1 : (1 : ℤ) ∈ List.replicate n (1 : ℤ) ++ cycleIdBlocks m 2 k :=
    List.mem_append.mpr (Or.inl (List.mem_replicate.mpr ⟨by omega, rfl⟩))
  refine ⟨⟨hsorted, hhead, ?_⟩, ?_⟩
  · refine ⟨if 0 < m ∧ 0 < k then cycles else 1, ?_, ?_, ?_, ?_⟩
    · split_ifs <;> omega
    · split_ifs <;> omega
    · intro j hj
      rcases List.mem_append.mp hj with hj | hj
      · rw [List.eq_of_mem_replicate hj]
        split_ifs <;> omega
      · obtain ⟨hm, t, ht, rfl⟩ := mem_cycleIdBlocks.mp hj
        rw [if_pos ⟨hm, by omega⟩]
        omega
    · intro j h1 hK
      by_cases hj1 : j = 1
      · subst hj1
        exact hmem1
      · by_cases hmk : 0 < m ∧ 0 < k
        · rw [if_pos hmk] at hK
          refine List.mem_append.mpr (Or.inr (mem_cycleIdBlocks.mpr
            ⟨hmk.1, (j - 2).toNat, by omega, by omega⟩))
        · rw [if_neg hmk] at hK
          omega
  · intro hm j h1 hj
    by_cases hj1 : j = 1
    · subst hj1
      exact hmem1
    · exact List.mem_append.mpr (Or.inr (mem_cycleIdBlocks.mpr
        ⟨hm, (j - 2).toNat, by omega, by omega⟩))

/-- Length of the flattened repetition of one block. -/
theorem length_flatten_replicate (k : ℕ) (tl : List ℚ) :
    ((List.replicate k tl).flatten).length = k * tl.length := by
  induction k with
  | zero => simp
  | succ k ih =>
      simp [List.replicate_succ, ih, Nat.succ_mul]
      ring

/-- The shared repetition shape of all three generators: the values and
ids have equal length, the ids satisfy the corrected invariant, and the
requested cycle count is attained when the repeated block is nonempty. -/
theorem pair_invariant_main (single tl : List ℚ) (cycles : ℤ)
    (hn : single ≠ []) (hcy : 1 ≤ cycles) :
    (single ++ (List.replicate (cycles - 1).toNat tl).flatten).length =
      (List.replicate single.length (1 : ℤ) ++
        cycleIdBlocks tl.length 2 (cycles - 1).toNat).length ∧
    CycleIdsOk (List.replicate single.length (1 : ℤ) ++
        cycleIdBlocks tl.length 2 (cycles - 1).toNat) cycles ∧
    (0 < tl.length → ∀ j : ℤ, 1 ≤ j → j ≤ cycles →
      j ∈ List.replicate single.length (1 : ℤ) ++
        cycleIdBlocks tl.length 2 (cycles - 1).toNat) := by
  refine ⟨?_, cycleIds_spec single.length tl.length cycles
    (List.length_pos.mpr hn) hcy⟩
  simp [length_flatten_replicate, length_cycleIdBlocks]

/-- The chained segment template of the custom generator is nonempty when
the segment list is nonempty and the generation did not abort. -/
theorem buildSegmentList_ne_nil {fuel : ℕ} {stepMag : ℚ} {segs : List (ℚ × ℚ)}
    {l : List ℚ} (hsegs : segs ≠ [])
    (h : buildSegmentList fuel stepMag segs true = some (some l)) : l ≠ [] := by
  cases segs with
  | nil => exact absurd rfl hsegs
  | cons ab rest =>
      obtain ⟨a, b⟩ := ab
      rw [buildSegmentList] at h
      split at h
      · cases h
      · split at h
        · simp at h
        · rename_i hse
          split at h
          · cases h
          · simp at h
          · simp only [Option.some.injEq] at h
            rw [← h]
            simp [hse]

/-- Counterexample to C8 as stated: the simple cycle generator at peak 0
with 2 requested cycles returns a single point with id list [1], whose
ids never reach the requested cycle count 2. -/
theorem C8_pair_invariants_counterexample :
    buildSimpleCycleValuesWithCycles 1 0 (1 / 2) 2 = some ([0], [1]) ∧
    (2 : ℤ) ∉ ([1] : List ℤ) := by
  constructor
  · norm_num [buildSimpleCycleValuesWithCycles]
  · decide

/-- Claim C8, corrected: each of the three pair-returning generators
returns values and ids of equal length; when the result is non-empty the
ids are non-decreasing, start at 1, and cover every integer from 1 up to
a bound K that is at most the requested cycle count (rather than always
equal to it: a one-point template repeats nothing); the hold-sequence
generator always attains the requested count. -/
theorem C8_pair_invariants_amended (fuel : ℕ) (peakV stepS stepC : ℚ)
    (segs : List (ℚ × ℚ)) (wv wt rv rt ev et dt : ℚ) (cyS cyC cyW : ℤ) :
    (∀ vs ids, buildSimpleCycleValuesWithCycles fuel peakV stepS cyS =
        some (vs, ids) →
      vs.length = ids.length ∧ (vs ≠ [] → CycleIdsOk ids cyS)) ∧
    (∀ vs ids, buildCustomSequenceValuesWithCycles fuel segs stepC cyC =
        some (vs, ids) →
      vs.length = ids.length ∧ (vs ≠ [] → CycleIdsOk ids cyC)) ∧
    (∀ vs ids, buildWrerValuesWithCycles wv wt rv rt ev et dt cyW = (vs, ids) →
      vs.length = ids.length ∧ (vs ≠ [] → CycleIdsOk ids cyW ∧
        ∀ j : ℤ, 1 ≤ j → j ≤ cyW → j ∈ ids)) := by
  refine ⟨?_, ?_, ?_⟩
  · intro vs ids h
    unfold buildSimpleCycleValuesWithCycles at h
    split_ifs at h with h1 h2
    · cases h
      exact ⟨rfl, fun hne => absurd rfl hne⟩
    · push_neg at h1
      cases h
      refine ⟨rfl, fun _ => ⟨by simp, rfl, 1, le_refl 1, by omega, ?_, ?_⟩⟩
      · intro j hj
        rw [List.mem_singleton] at hj
        omega
      · intro j hj1 hj2
        rw [List.mem_singleton]
        omega
    · push_neg at h1
      rcases e1 : buildSweepValues fuel 0 |peakV| |stepS| with _ | s1
      · rw [e1] at h
        exact absurd h (by simp)
      · rcases e2 : buildSweepValues fuel |peakV| 0 (-|stepS|) with _ | s2
        · rw [e1, e2] at h
          exact absurd h (by simp)
        · rcases e3 : buildSweepValues fuel 0 (-|peakV|) (-|stepS|) with _ | s3
          · rw [e1, e2, e3] at h
            exact absurd h (by simp)
          · rcases e4 : buildSweepValues fuel (-|peakV|) 0 |stepS| with _ | s4
            · rw [e1, e2, e3, e4] at h
              exact absurd h (by simp)
            · rw [e1, e2, e3, e4] at h
              dsimp only at h
              split_ifs at h with hemp
              · cases h
                exact ⟨rfl, fun hne => absurd rfl hne⟩
              · push_neg at hemp
                cases h
                have hsne : s1 ++ s2.tail ++ s3.tail ++ s4.tail ≠ [] := by
                  simp [List.append_eq_nil, hemp.1]
                have hmain := pair_invariant_main
                  (s1 ++ s2.tail ++ s3.tail ++ s4.tail)
                  (s1 ++ s2.tail ++ s3.tail ++ s4.tail).tail cyS hsne (by omega)
                exact ⟨hmain.1, fun _ => hmain.2.1⟩
  · intro vs ids h
    unfold buildCustomSequenceValuesWithCycles at h
    split_ifs at h with h1
    · cases h
      exact ⟨rfl, fun hne => absurd rfl hne⟩
    · push_neg at h1
      rcases e : buildSegmentList fuel |stepC| segs true with _ | os
      · rw [e] at h
        exact absurd h (by simp)
      · rw [e] at h
        cases os with
        | none =>
            cases h
            exact ⟨rfl, fun hne => absurd rfl hne⟩
        | some single =>
            cases h
            have hne : single ≠ [] := buildSegmentList_ne_nil h1.2.2 e
            have hmain := pair_invariant_main single single.tail cyC hne
              (by omega)
            exact ⟨hmain.1, fun _ => hmain.2.1⟩
  · intro vs ids h
    unfold buildWrerValuesWithCycles at h
    by_cases h1 : cyW < 1
    · rw [if_pos h1] at h
      cases h
      exact ⟨rfl, fun hne => absurd rfl hne⟩
    · rw [if_neg h1] at h
      dsimp only at h
      by_cases h2 : buildHoldValues wv wt dt ++ buildHoldValues rv rt dt ++
          buildHoldValues ev et dt ++ buildHoldValues rv rt dt = []
      · rw [if_pos h2] at h
        cases h
        exact ⟨rfl, fun hne => absurd rfl hne⟩
      · rw [if_neg h2] at h
        cases h
        have hmain := pair_invariant_main
          (buildHoldValues wv wt dt ++ buildHoldValues rv rt dt ++
            buildHoldValues ev et dt ++ buildHoldValues rv rt dt)
          (buildHoldValues wv wt dt ++ buildHoldValues rv rt dt ++
            buildHoldValues ev et dt ++ buildHoldValues rv rt dt)
          cyW h2 (by omega)
        exact ⟨hmain.1, fun _ => ⟨hmain.2.1,
          hmain.2.2 (List.length_pos.mpr h2)⟩⟩

/-- Witness for C8 amended: the hold-sequence generator at two cycles,
checked through the theorem against a concretely computed run. -/
theorem C8_pair_invariants_amended_witness :
    ([3, 3, 1, -1, 1, 3, 3, 1, -1, 1] : List ℚ).length =
      ([1, 1, 1, 1, 1, 2, 2, 2, 2, 2] : List ℤ).length ∧
    CycleIdsOk [1, 1, 1, 1, 1, 2, 2, 2, 2, 2] 2 := by
  have hw : buildWrerValuesWithCycles 3 (1 / 5) 1 (1 / 10) (-1) (1 / 10) (1 / 10) 2 =
      ([3, 3, 1, -1, 1, 3, 3, 1, -1, 1], [1, 1, 1, 1, 1, 2, 2, 2, 2, 2]) := by
    norm_num [buildWrerValuesWithCycles, buildHoldValues, pyRound12, roundHalfEven,
      cycleIdBlocks, List.replicate, List.cons_ne_nil]
  have h := (C8_pair_invariants_amended 0 0 0 0 [] 3 (1 / 5) 1 (1 / 10) (-1)
    (1 / 10) (1 / 10) 0 0 2).2.2 _ _ hw
  exact ⟨h.1, (h.2 (by simp)).1⟩
